import Mathlib

/-!
Verification of `langsmith/evaluation/_integrations.py`: the
`LangChainStringEvaluator` adapter that wraps a LangChain `StringEvaluator`
as a LangSmith run evaluator.

The embedding models Python dictionaries as association lists in insertion
order (`List (String × Value)`); an `Optional[Dict]` that the code only
tests for truthiness or iterates is modelled as a list, with the empty list
covering both `None` and `{}` (the code treats them alike everywhere except
for which exception class a crash raises, which the claims do not
distinguish).  Python exceptions become the `EvalError` sum returned through
`Except`.  The `@traceable` decorators are purely observational
instrumentation and are not modelled.
-/

set_option autoImplicit false

namespace LangSmith

/-- A Python value stored in a run/example mapping or a result mapping
(`Any` in the source). -/
inductive Value where
  | str : String → Value
  | num : Int → Value
  | bool : Bool → Value
  deriving DecidableEq, Repr

/-- The fields of `langsmith.schemas.Run` that `as_run_evaluator` can see.
Besides `id` and `outputs` (the only fields the adapter reads) we keep the
run's `name` and `inputs` so that the frame claims are not vacuous. -/
structure Run where
  id : String
  name : String
  inputs : List (String × Value)
  outputs : List (String × Value)
  deriving DecidableEq, Repr

/-- The fields of `langsmith.schemas.Example` relevant here: `outputs` and
`inputs` are read by the adapter; `dataset_id` is carried only to witness
that the adapter never looks at it. -/
structure Example where
  dataset_id : String
  inputs : List (String × Value)
  outputs : List (String × Value)
  deriving DecidableEq, Repr

/-- The `SingleEvaluatorInput` TypedDict of the source: the keyword
arguments handed to `StringEvaluator.evaluate_strings`. -/
structure SingleEvaluatorInput where
  prediction : Option Value
  reference : Option Value
  input : Option Value
  deriving DecidableEq, Repr

/-- The Python exceptions that can escape the adapter code.
`missingReference` is the `ValueError` raised by the validation check (the
spec's `MissingReferenceError`), carrying the evaluator's name and the
run's id. `attributeError` models accessing an attribute of `None`;
`stopIteration` models `next` on an exhausted iterator. `scorerRaised`
stands for an arbitrary exception raised inside the wrapped scorer. -/
inductive EvalError where
  | missingReference : String → String → EvalError
  | attributeError : EvalError
  | stopIteration : EvalError
  | scorerRaised : String → EvalError
  deriving DecidableEq, Repr

/-- The wrapped LangChain `StringEvaluator` capability: a name, the
`requires_reference` flag, and the `evaluate_strings` call, which may
either return a result mapping or raise. -/
structure StringEvaluator where
  evaluation_name : String
  requires_reference : Bool
  evaluate_strings : SingleEvaluatorInput → Except EvalError (List (String × Value))

/-- Truthiness of `example is None or not example.outputs` from the
validation check. -/
def refMissing (exm : Option Example) : Bool :=
  match exm with
  | none => true
  | some e => e.outputs.isEmpty

/-- The nested `prepare_evaluator_inputs(run, example)` function, line by
line.  The validation check runs first; then the `SingleEvaluatorInput`
keyword arguments are evaluated left to right exactly as Python does:
`prediction` is guarded by `if run.outputs`, `reference` only by
`if example` (so an example with an empty output mapping crashes the
`next(iter(...))` call), and `input` is guarded by `if example.inputs`
(which itself crashes when `example` is `None`). -/
def prepare_evaluator_inputs (ev : StringEvaluator) (run : Run)
    (exm : Option Example) : Except EvalError SingleEvaluatorInput :=
  if ev.requires_reference && refMissing exm then
    Except.error (EvalError.missingReference ev.evaluation_name run.id)
  else do
    let prediction : Option Value :=
      if run.outputs.isEmpty then none else run.outputs.head?.map Prod.snd
    let reference : Option Value ←
      match exm with
      | some e =>
        match e.outputs.head? with
        | some kv => Except.ok (some kv.2)
        | none => Except.error EvalError.stopIteration
      | none => Except.ok none
    let input : Option Value ←
      match exm with
      | none => Except.error EvalError.attributeError
      | some e =>
        Except.ok (if e.inputs.isEmpty then none else e.inputs.head?.map Prod.snd)
    return { prediction := prediction, reference := reference, input := input }

/-- Membership test for a key in a Python dict modelled as an association
list. -/
def hasKey : List (String × Value) → String → Bool
  | [], _ => false
  | kv :: rest, k => if kv.1 = k then true else hasKey rest k

/-- First-occurrence lookup, the value `d[k]` observed by a reader of the
dict (keys of a real Python dict are unique, so first = only). -/
def dictGet : List (String × Value) → String → Option Value
  | [], _ => none
  | kv :: rest, k => if kv.1 = k then some kv.2 else dictGet rest k

/-- `d[k] = v` on a Python dict: update the value in place when the key is
present (keeping its position), append the new entry otherwise. -/
def dictInsert (d : List (String × Value)) (k : String) (v : Value) :
    List (String × Value) :=
  if hasKey d k then d.map (fun kv => if kv.1 = k then (k, v) else kv)
  else d ++ [(k, v)]

/-- Folding a sequence of entries into a dict one assignment at a time:
the semantics of `**results` inside a dict display. -/
def dictUpdate (d : List (String × Value)) (entries : List (String × Value)) :
    List (String × Value) :=
  entries.foldl (fun acc kv => dictInsert acc kv.1 kv.2) d

/-- The dict display of the source's return statement,
`{"key": self.evaluator.evaluation_name, **results}`. -/
def mergeKey (name : String) (results : List (String × Value)) :
    List (String × Value) :=
  dictUpdate [("key", Value.str name)] results

/-- The nested `evaluate(run, example)` function: prepare the inputs,
invoke `evaluate_strings` on them, and emit the merged mapping.  Any
failure of either step propagates unchanged through the `Except` monad,
exactly as Python exceptions propagate out of the undecorated calls. -/
def evaluate (ev : StringEvaluator) (run : Run) (exm : Option Example) :
    Except EvalError (List (String × Value)) := do
  let eval_inputs ← prepare_evaluator_inputs ev run exm
  let results ← ev.evaluate_strings eval_inputs
  return mergeKey ev.evaluation_name results

/-- The pair of optional-example views the adapter actually reads: both
absent, or both present with the same `inputs` and `outputs` mappings
(other fields, such as `dataset_id`, free to differ). -/
def sameView : Option Example → Option Example → Prop
  | none, none => True
  | some a, some b => a.inputs = b.inputs ∧ a.outputs = b.outputs
  | _, _ => False

/-- A scorer body that always returns a fixed score mapping. -/
def okScores : SingleEvaluatorInput → Except EvalError (List (String × Value)) :=
  fun _ => Except.ok [("score", Value.num 1)]

/-- The spec's Scenario A scorer: name `exact_match`, no reference needed. -/
def exactMatch : StringEvaluator :=
  ⟨"exact_match", false, okScores⟩

/-- A scorer identical to `exactMatch` but with an eta-expanded body,
pointwise equal without being syntactically identical. -/
def exactMatchEta : StringEvaluator :=
  ⟨"exact_match", false, fun inp => okScores inp⟩

/-- The spec's Scenario B/C scorer: `requires_reference` set. -/
def embeddingDistance : StringEvaluator :=
  ⟨"embedding_distance", true, okScores⟩

/-- A scorer whose result mapping itself carries a `"key"` entry. -/
def keyThief : StringEvaluator :=
  ⟨"exact_match", false, fun _ => Except.ok [("key", Value.str "other"), ("score", Value.num 0)]⟩

/-- A scorer whose `evaluate_strings` call raises. -/
def raisingScorer : StringEvaluator :=
  ⟨"exact_match", false, fun _ => Except.error (EvalError.scorerRaised "boom")⟩

/-- The spec's Scenario A run: a single output field. -/
def parisRun : Run :=
  ⟨"run-1", "chain", [("question", Value.str "capital?")], [("output", Value.str "Paris")]⟩

/-- The same run as observed by the adapter, with the unread `name` and
`inputs` fields changed. -/
def parisRunRenamed : Run :=
  ⟨"run-1", "other-chain", [], [("output", Value.str "Paris")]⟩

/-- A run that produced no outputs at all. -/
def emptyRun : Run :=
  ⟨"run-2", "chain", [("question", Value.str "capital?")], []⟩

/-- A run whose single output lives under a different field name. -/
def answerRun : Run :=
  ⟨"run-3", "chain", [], [("answer", Value.str "42")]⟩

/-- A dataset example with one expected output and one input field. -/
def parisExample : Example :=
  ⟨"ds-1", [("question", Value.str "capital?")], [("answer", Value.str "Paris")]⟩

/-- The same example with only the unread `dataset_id` field changed. -/
def parisExampleOtherDs : Example :=
  ⟨"ds-9", [("question", Value.str "capital?")], [("answer", Value.str "Paris")]⟩

/-- A dataset example whose output mapping is empty. -/
def emptyOutputsExample : Example :=
  ⟨"ds-2", [("question", Value.str "capital?")], []⟩

theorem ite_head_map (l : List (String × Value)) :
    (if l.isEmpty then none else l.head?.map Prod.snd) = l.head?.map Prod.snd := by
  cases l <;> rfl

theorem ite_nil_head_map (l : List (String × Value)) :
    (if l = [] then none else l.head?.map Prod.snd) = l.head?.map Prod.snd := by
  cases l <;> simp

theorem evaluate_bind (ev : StringEvaluator) (r : Run) (exm : Option Example) :
    evaluate ev r exm =
      Except.bind (prepare_evaluator_inputs ev r exm) (fun inp =>
        Except.bind (ev.evaluate_strings inp) (fun results =>
          Except.ok (mergeKey ev.evaluation_name results))) := rfl

theorem evaluate_of_prepare_error {ev : StringEvaluator} {r : Run} {exm : Option Example}
    {err : EvalError} (h : prepare_evaluator_inputs ev r exm = Except.error err) :
    evaluate ev r exm = Except.error err := by
  rw [evaluate_bind, h]; rfl

theorem evaluate_of_prepare_ok {ev : StringEvaluator} {r : Run} {exm : Option Example}
    {inp : SingleEvaluatorInput} (h : prepare_evaluator_inputs ev r exm = Except.ok inp) :
    evaluate ev r exm =
      Except.map (mergeKey ev.evaluation_name) (ev.evaluate_strings inp) := by
  rw [evaluate_bind, h]
  cases hs : ev.evaluate_strings inp <;> simp [hs, Except.bind, Except.map]

theorem prepare_missing {ev : StringEvaluator} {r : Run} {exm : Option Example}
    (h1 : ev.requires_reference = true) (h2 : refMissing exm = true) :
    prepare_evaluator_inputs ev r exm =
      Except.error (EvalError.missingReference ev.evaluation_name r.id) := by
  simp [prepare_evaluator_inputs, h1, h2]

theorem prepare_none_attr {ev : StringEvaluator} {r : Run}
    (h : ev.requires_reference = false) :
    prepare_evaluator_inputs ev r none = Except.error EvalError.attributeError := by
  simp [prepare_evaluator_inputs, refMissing, h, Bind.bind, Except.bind]

theorem prepare_some_nil {ev : StringEvaluator} {r : Run} {e : Example}
    (h : ev.requires_reference = false) (ho : e.outputs = []) :
    prepare_evaluator_inputs ev r (some e) = Except.error EvalError.stopIteration := by
  simp [prepare_evaluator_inputs, refMissing, h, ho, Bind.bind, Except.bind]

theorem prepare_some_cons {ev : StringEvaluator} {r : Run} {e : Example}
    {kv : String × Value} {rest : List (String × Value)} (ho : e.outputs = kv :: rest) :
    prepare_evaluator_inputs ev r (some e) =
      Except.ok ⟨r.outputs.head?.map Prod.snd, some kv.2, e.inputs.head?.map Prod.snd⟩ := by
  simp [prepare_evaluator_inputs, refMissing, ho, Bind.bind, Except.bind, ite_head_map,
    ite_nil_head_map, pure, Except.pure]

theorem hasKey_append (a b : List (String × Value)) (k : String) :
    hasKey (a ++ b) k = (hasKey a k || hasKey b k) := by
  induction a with
  | nil => simp [hasKey]
  | cons kv rest ih => by_cases hk : kv.1 = k <;> simp [hasKey, hk, ih]

theorem hasKey_false_iff (d : List (String × Value)) (k : String) :
    hasKey d k = false ↔ ∀ kv ∈ d, kv.1 ≠ k := by
  induction d with
  | nil => simp [hasKey]
  | cons kv rest ih => by_cases hk : kv.1 = k <;> simp [hasKey, hk, ih]

theorem dictUpdate_fresh :
    ∀ (entries acc : List (String × Value)),
      (∀ kv ∈ entries, hasKey acc kv.1 = false) →
      (entries.map Prod.fst).Nodup →
      dictUpdate acc entries = acc ++ entries := by
  intro entries
  induction entries with
  | nil => intro acc _ _; simp [dictUpdate]
  | cons kv rest ih =>
    intro acc hfresh hnodup
    have hk : hasKey acc kv.1 = false := hfresh kv (by simp)
    have hstep : dictUpdate acc (kv :: rest) = dictUpdate (dictInsert acc kv.1 kv.2) rest := rfl
    have hins : dictInsert acc kv.1 kv.2 = acc ++ [kv] := by
      simp [dictInsert, hk]
    have hnd : (rest.map Prod.fst).Nodup := by
      simp only [List.map_cons, List.nodup_cons] at hnodup
      exact hnodup.2
    have hnotin : kv.1 ∉ rest.map Prod.fst := by
      simp only [List.map_cons, List.nodup_cons] at hnodup
      exact hnodup.1
    rw [hstep, hins, ih]
    · simp
    · intro kv' hkv'
      rw [hasKey_append]
      have h1 : hasKey acc kv'.1 = false := hfresh kv' (List.mem_cons_of_mem _ hkv')
      have h2 : hasKey [kv] kv'.1 = false := by
        have hne : kv.1 ≠ kv'.1 := by
          intro heq
          exact hnotin (heq ▸ List.mem_map_of_mem Prod.fst hkv')
        simp [hasKey, hne]
      simp [h1, h2]
    · exact hnd

/-- Helper: the only way `prepare_evaluator_inputs` produces the validation
error is through the validation check itself. -/
theorem prepare_no_spurious_missing :
    ∀ (ev : StringEvaluator) (r : Run) (exm : Option Example) (n i : String),
      prepare_evaluator_inputs ev r exm = Except.error (EvalError.missingReference n i) →
      ev.requires_reference = true ∧ refMissing exm = true := by
  intro ev r exm n i hpe
  by_cases h1 : ev.requires_reference = true
  · by_cases h2 : refMissing exm = true
    · exact ⟨h1, h2⟩
    · exfalso
      cases exm with
      | none => simp [refMissing] at h2
      | some e =>
        cases ho : e.outputs with
        | nil => simp [refMissing, ho] at h2
        | cons kv rest => rw [prepare_some_cons ho] at hpe; exact absurd hpe (by simp)
  · have h1' : ev.requires_reference = false := by simpa using h1
    cases exm with
    | none => rw [prepare_none_attr h1'] at hpe; exact absurd hpe (by simp)
    | some e =>
      cases ho : e.outputs with
      | nil => rw [prepare_some_nil h1' ho] at hpe; exact absurd hpe (by simp)
      | cons kv rest => rw [prepare_some_cons ho] at hpe; exact absurd hpe (by simp)

/-- C1 counterexample: a scorer whose result mapping carries its own
`"key"` entry.  Because the source writes `{"key": name, **results}`, the
scorer's `"key"` overrides the adapter's name, contrary to the claim that
the adapter's name always wins. -/
theorem c1_counterexample :
    evaluate keyThief parisRun (some parisExample) =
      Except.ok [("key", Value.str "other"), ("score", Value.num 0)] ∧
    dictGet [("key", Value.str "other"), ("score", Value.num 0)] "key" ≠
      some (Value.str keyThief.evaluation_name) := by
  exact ⟨rfl, by decide⟩

/-- C1 (amended): in the merged mapping `{"key": name, **results}` every
result-mapping key wins on collision, including `"key"` itself; hence the
output's `"key"` entry equals the scorer's declared name whenever the
scorer's own result mapping contains no `"key"` entry, and every other key
keeps the scorer's value. -/
theorem c1_amended_key_merge :
    ∀ (ev : StringEvaluator) (r : Run) (exm : Option Example)
      (inp : SingleEvaluatorInput) (results : List (String × Value)),
      prepare_evaluator_inputs ev r exm = Except.ok inp →
      ev.evaluate_strings inp = Except.ok results →
      (results.map Prod.fst).Nodup →
      hasKey results "key" = false →
      evaluate ev r exm = Except.ok (("key", Value.str ev.evaluation_name) :: results) ∧
      dictGet (("key", Value.str ev.evaluation_name) :: results) "key" =
        some (Value.str ev.evaluation_name) ∧
      ∀ k, k ≠ "key" →
        dictGet (("key", Value.str ev.evaluation_name) :: results) k = dictGet results k := by
  intro ev r exm inp results hp hs hnd hk
  have hmerge : mergeKey ev.evaluation_name results =
      ("key", Value.str ev.evaluation_name) :: results := by
    have hfresh : ∀ kv ∈ results,
        hasKey [("key", Value.str ev.evaluation_name)] kv.1 = false := by
      intro kv hkv
      have hne := (hasKey_false_iff results "key").mp hk kv hkv
      simp [hasKey, Ne.symm hne]
    have hupd := dictUpdate_fresh results [("key", Value.str ev.evaluation_name)] hfresh hnd
    simpa [mergeKey] using hupd
  refine ⟨?_, ?_, ?_⟩
  · rw [evaluate_of_prepare_ok hp, hs]
    simp [Except.map, hmerge]
  · simp [dictGet]
  · intro k hkne
    simp [dictGet, Ne.symm hkne]

/-- C1 witness: a well-behaved scorer whose results carry no `"key"`. -/
theorem c1_witness :
    evaluate exactMatch parisRun (some parisExample) =
      Except.ok (("key", Value.str exactMatch.evaluation_name) :: [("score", Value.num 1)]) :=
  (c1_amended_key_merge exactMatch parisRun (some parisExample)
    ⟨some (Value.str "Paris"), some (Value.str "Paris"), some (Value.str "capital?")⟩
    [("score", Value.num 1)] rfl rfl (by simp) rfl).1

/-- C2: `prepare_evaluator_inputs` raises the missing-reference error
exactly when `requires_reference` holds and the example is absent or has an
empty output mapping; the error carries the evaluator's name and the run's
id; and with `requires_reference = false`, `evaluate` on a null example
never raises it (it fails differently, but never with this error). -/
theorem c2_missing_reference :
    ∀ (ev : StringEvaluator) (r : Run) (exm : Option Example),
      ((∃ n i, prepare_evaluator_inputs ev r exm =
          Except.error (EvalError.missingReference n i)) ↔
        (ev.requires_reference = true ∧
          (exm = none ∨ ∃ e, exm = some e ∧ e.outputs = []))) ∧
      (ev.requires_reference = true →
        (exm = none ∨ ∃ e, exm = some e ∧ e.outputs = []) →
        prepare_evaluator_inputs ev r exm =
          Except.error (EvalError.missingReference ev.evaluation_name r.id)) ∧
      (ev.requires_reference = false →
        ∀ n i, evaluate ev r none ≠ Except.error (EvalError.missingReference n i)) := by
  intro ev r exm
  have hrm : refMissing exm = true ↔
      (exm = none ∨ ∃ e, exm = some e ∧ e.outputs = []) := by
    cases exm with
    | none => simp [refMissing]
    | some e => simp [refMissing, List.isEmpty_iff]
  refine ⟨⟨?_, ?_⟩, ?_, ?_⟩
  · rintro ⟨n, i, hpe⟩
    have hni := prepare_no_spurious_missing ev r exm n i hpe
    exact ⟨hni.1, hrm.mp hni.2⟩
  · rintro ⟨h1, h2⟩
    exact ⟨ev.evaluation_name, r.id, prepare_missing h1 (hrm.mpr h2)⟩
  · intro h1 h2
    exact prepare_missing h1 (hrm.mpr h2)
  · intro h1 n i hev
    rw [evaluate_of_prepare_error (prepare_none_attr h1)] at hev
    exact absurd hev (by simp)

/-- C2 witness: a reference-requiring scorer with no example. -/
theorem c2_witness :
    prepare_evaluator_inputs embeddingDistance parisRun none =
      Except.error (EvalError.missingReference embeddingDistance.evaluation_name parisRun.id) :=
  (c2_missing_reference embeddingDistance parisRun none).2.1 rfl (Or.inl rfl)

/-- C3 (code bug): the spec's Scenario A — a `requires_reference = false`
scorer, a run with one output, and a null example — does not return
`{prediction: "Paris", reference: null, input: null}`: the expression
`example.inputs` is evaluated on `None` and the call dies with an
`AttributeError` instead of returning. -/
theorem c3_scenario_a_crashes :
    exactMatch.requires_reference = false ∧
    parisRun.outputs = [("output", Value.str "Paris")] ∧
    prepare_evaluator_inputs exactMatch parisRun none =
      Except.error EvalError.attributeError :=
  ⟨rfl, rfl, rfl⟩

/-- C4 (code bug): with a present example whose output mapping is empty and
a `requires_reference = false` scorer, the reference extraction runs
`next(iter(example.outputs.values()))` unguarded and the call dies with a
`StopIteration` instead of returning a null reference. -/
theorem c4_empty_example_outputs_crashes :
    exactMatch.requires_reference = false ∧
    emptyOutputsExample.outputs = [] ∧
    prepare_evaluator_inputs exactMatch parisRun (some emptyOutputsExample) =
      Except.error EvalError.stopIteration :=
  ⟨rfl, rfl, rfl⟩

/-- C5 counterexample: for a run with non-empty outputs and a null example
the claim promises a returned prediction, but `prepare_evaluator_inputs`
crashes with an `AttributeError` and returns nothing at all. -/
theorem c5_counterexample :
    answerRun.outputs.head?.map Prod.snd = some (Value.str "42") ∧
    prepare_evaluator_inputs exactMatch answerRun none =
      Except.error EvalError.attributeError ∧
    (prepare_evaluator_inputs exactMatch answerRun none).toOption = none :=
  ⟨rfl, rfl, rfl⟩

/-- C5 (amended): whenever `prepare_evaluator_inputs` returns normally, the
returned prediction is the first value of the run's output mapping in
iteration order (null when the mapping is empty), independent of the field
name used and of the example's contents. -/
theorem c5_prediction_first_output :
    ∀ (ev : StringEvaluator) (r : Run) (exm : Option Example)
      (inp : SingleEvaluatorInput),
      prepare_evaluator_inputs ev r exm = Except.ok inp →
      inp.prediction = r.outputs.head?.map Prod.snd := by
  intro ev r exm inp hp
  cases exm with
  | none =>
    by_cases h1 : ev.requires_reference = true
    · rw [prepare_missing h1 (by simp [refMissing])] at hp
      exact absurd hp (by simp)
    · rw [prepare_none_attr (by simpa using h1)] at hp
      exact absurd hp (by simp)
  | some e =>
    cases ho : e.outputs with
    | nil =>
      by_cases h1 : ev.requires_reference = true
      · rw [prepare_missing h1 (by simp [refMissing, ho])] at hp
        exact absurd hp (by simp)
      · rw [prepare_some_nil (by simpa using h1) ho] at hp
        exact absurd hp (by simp)
    | cons kv rest =>
      have h2 : Except.ok (ε := EvalError) inp =
          Except.ok (⟨r.outputs.head?.map Prod.snd, some kv.2,
            e.inputs.head?.map Prod.snd⟩ : SingleEvaluatorInput) :=
        hp.symm.trans (prepare_some_cons ho)
      simp only [Except.ok.injEq] at h2
      rw [h2]

/-- C5 witness: the prepared input for Scenario B carries the run's first
output value as its prediction. -/
theorem c5_witness :
    (⟨some (Value.str "Paris"), some (Value.str "Paris"), some (Value.str "capital?")⟩ :
        SingleEvaluatorInput).prediction = parisRun.outputs.head?.map Prod.snd :=
  c5_prediction_first_output exactMatch parisRun (some parisExample)
    ⟨some (Value.str "Paris"), some (Value.str "Paris"), some (Value.str "capital?")⟩ rfl

/-- C6: when a reference-requiring scorer is invoked with a null example or
one with an empty output mapping, `evaluate` fails with the validation
error, and the result is the same for every possible scorer body — the
wrapped scorer is never consulted. -/
theorem c6_validation_precedes_scoring :
    ∀ (name : String)
      (f g : SingleEvaluatorInput → Except EvalError (List (String × Value)))
      (r : Run) (exm : Option Example),
      (exm = none ∨ ∃ e, exm = some e ∧ e.outputs = []) →
      evaluate ⟨name, true, f⟩ r exm =
        Except.error (EvalError.missingReference name r.id) ∧
      evaluate ⟨name, true, f⟩ r exm = evaluate ⟨name, true, g⟩ r exm := by
  intro name f g r exm hmiss
  have hrm : refMissing exm = true := by
    rcases hmiss with h | ⟨e, he, ho⟩
    · simp [h, refMissing]
    · simp [he, refMissing, ho]
  have hf : evaluate ⟨name, true, f⟩ r exm =
      Except.error (EvalError.missingReference name r.id) :=
    evaluate_of_prepare_error (prepare_missing rfl hrm)
  have hg : evaluate ⟨name, true, g⟩ r exm =
      Except.error (EvalError.missingReference name r.id) :=
    evaluate_of_prepare_error (prepare_missing rfl hrm)
  exact ⟨hf, hf.trans hg.symm⟩

/-- C6 witness: a reference-requiring scorer, no example: the error comes
back no matter whether the scorer body would score or raise. -/
theorem c6_witness :
    evaluate ⟨"exact_match", true, okScores⟩ parisRun none =
      Except.error (EvalError.missingReference "exact_match" parisRun.id) :=
  (c6_validation_precedes_scoring "exact_match" okScores
    (fun _ => Except.error (EvalError.scorerRaised "never")) parisRun none (Or.inl rfl)).1

/-- C7: any exception raised by the wrapped scorer's `evaluate_strings`
call propagates out of `evaluate` unchanged — no catching, wrapping, or
translating. -/
theorem c7_scorer_error_propagates :
    ∀ (ev : StringEvaluator) (r : Run) (exm : Option Example)
      (inp : SingleEvaluatorInput) (err : EvalError),
      prepare_evaluator_inputs ev r exm = Except.ok inp →
      ev.evaluate_strings inp = Except.error err →
      evaluate ev r exm = Except.error err := by
  intro ev r exm inp err hp hs
  rw [evaluate_of_prepare_ok hp, hs]
  rfl

/-- C7 witness: a scorer that raises on Scenario B inputs. -/
theorem c7_witness :
    evaluate raisingScorer parisRun (some parisExample) =
      Except.error (EvalError.scorerRaised "boom") :=
  c7_scorer_error_propagates raisingScorer parisRun (some parisExample)
    ⟨some (Value.str "Paris"), some (Value.str "Paris"), some (Value.str "capital?")⟩
    (EvalError.scorerRaised "boom") rfl rfl

/-- C8: `evaluate` is a pure function of the run, the example, and the
scorer's observable behaviour: two scorers with the same name, the same
`requires_reference` flag, and pointwise-equal scoring functions yield
identical results on identical inputs, so repeated calls with a pure
scorer agree. -/
theorem c8_deterministic :
    ∀ (ev₁ ev₂ : StringEvaluator) (r : Run) (exm : Option Example),
      ev₁.evaluation_name = ev₂.evaluation_name →
      ev₁.requires_reference = ev₂.requires_reference →
      (∀ inp, ev₁.evaluate_strings inp = ev₂.evaluate_strings inp) →
      evaluate ev₁ r exm = evaluate ev₂ r exm := by
  intro ev₁ ev₂ r exm hn hr hs
  have hprep : prepare_evaluator_inputs ev₁ r exm = prepare_evaluator_inputs ev₂ r exm := by
    simp [prepare_evaluator_inputs, hn, hr]
  rw [evaluate_bind, evaluate_bind, hprep, hn]
  cases prepare_evaluator_inputs ev₂ r exm with
  | error e => rfl
  | ok inp => simp [Except.bind, hs inp]

/-- C8 witness: two syntactically distinct but observably equal scorers. -/
theorem c8_witness :
    evaluate exactMatch parisRun (some parisExample) =
      evaluate exactMatchEta parisRun (some parisExample) :=
  c8_deterministic exactMatch exactMatchEta parisRun (some parisExample) rfl rfl
    (fun _ => rfl)

/-- C9: a run with an empty output mapping passes validation whenever the
example is usable: `prepare_evaluator_inputs` returns a null prediction
and `evaluate` forwards it straight to the wrapped scorer — no check that
the run produced any output exists. -/
theorem c9_null_prediction_forwarded :
    ∀ (ev : StringEvaluator) (r : Run) (e : Example),
      r.outputs = [] → e.outputs ≠ [] →
      prepare_evaluator_inputs ev r (some e) =
        Except.ok ⟨none, e.outputs.head?.map Prod.snd, e.inputs.head?.map Prod.snd⟩ ∧
      evaluate ev r (some e) =
        Except.map (mergeKey ev.evaluation_name)
          (ev.evaluate_strings
            ⟨none, e.outputs.head?.map Prod.snd, e.inputs.head?.map Prod.snd⟩) := by
  intro ev r e hro hne
  cases ho : e.outputs with
  | nil => exact absurd ho hne
  | cons kv rest =>
    constructor
    · rw [prepare_some_cons ho, hro]
      simp
    · rw [evaluate_of_prepare_ok (prepare_some_cons ho), hro]
      simp

/-- C9 witness: an empty-output run against Scenario B's example. -/
theorem c9_witness :
    prepare_evaluator_inputs exactMatch emptyRun (some parisExample) =
      Except.ok ⟨none, parisExample.outputs.head?.map Prod.snd,
        parisExample.inputs.head?.map Prod.snd⟩ :=
  (c9_null_prediction_forwarded exactMatch emptyRun parisExample rfl (by decide)).1

/-- C10: the adapter reads nothing from the run beyond its `id` and
`outputs` and nothing from the example beyond its `inputs` and `outputs`:
both operations give identical results on runs/examples agreeing on those
fields, whatever the other fields hold.  Both are pure value-to-value
functions in this embedding, mirroring that the source only reads its
arguments and never mutates them. -/
theorem c10_frame :
    ∀ (ev : StringEvaluator) (r₁ r₂ : Run) (e₁ e₂ : Option Example),
      r₁.id = r₂.id → r₁.outputs = r₂.outputs → sameView e₁ e₂ →
      prepare_evaluator_inputs ev r₁ e₁ = prepare_evaluator_inputs ev r₂ e₂ ∧
      evaluate ev r₁ e₁ = evaluate ev r₂ e₂ := by
  intro ev r₁ r₂ e₁ e₂ hid hout hview
  have hprep : prepare_evaluator_inputs ev r₁ e₁ = prepare_evaluator_inputs ev r₂ e₂ := by
    cases e₁ with
    | none =>
      cases e₂ with
      | none => simp [prepare_evaluator_inputs, hid, hout]
      | some b => exact (hview : False).elim
    | some a =>
      cases e₂ with
      | none => exact (hview : False).elim
      | some b =>
        obtain ⟨hi, ho⟩ := (hview : a.inputs = b.inputs ∧ a.outputs = b.outputs)
        simp [prepare_evaluator_inputs, refMissing, hid, hout, hi, ho]
  refine ⟨hprep, ?_⟩
  rw [evaluate_bind, evaluate_bind, hprep]

/-- C10 witness: renaming the run and changing its unread inputs, and
changing the example's dataset id, leaves the result untouched. -/
theorem c10_witness :
    evaluate exactMatch parisRun (some parisExample) =
      evaluate exactMatch parisRunRenamed (some parisExampleOtherDs) :=
  (c10_frame exactMatch parisRun parisRunRenamed (some parisExample)
    (some parisExampleOtherDs) rfl rfl ⟨rfl, rfl⟩).2

end LangSmith
